import Mathlib

/-!
Verification development for the TimeCamp employee-status report engine
(`streamlit_app.py`).

Embedding conventions:
* Calendar dates are day indices (`Nat`) counted from a Monday epoch, so
  `weekday d = d % 7` with Monday = 0, ..., Thursday = 3, Friday = 4,
  Saturday = 5, Sunday = 6, exactly the numbering of Python's
  `datetime.weekday()`; consecutive dates are consecutive indices.
* The holiday set (`il_holidays`, a dict keyed by date strings) is a
  `List Nat` of holiday dates; only key membership matters to the engine.
* Hours are exact rationals (`ℚ`), a faithful model of the float formulas
  `7.5`, `8`, `8.5`, `11.5`, `total_seconds / 3600` in the ranges involved.
* The HTTP fetch of one date's entries is an oracle
  `f : Nat → Option (List Entry)`: `some entries` models a 200 response
  with that JSON list, `none` any non-success status.
* A pandas DataFrame row is a `DayRecord`; the column assignments of
  `fetch_data` become field computations.  `cumsum` is the prefix sum,
  `iloc[-1]` the last element, and the `df.loc[last, "Missing Hours"]`
  update is `setLastMissing`.
* `fetch_data(api_key, year, month)` enumerates the consecutive dates of a
  month (capped at today for the current month); the enumeration itself is
  modelled as the consecutive range `dateRange first len`.  That range is
  strictly increasing, so the `df.sort_values("Date")` step is the
  identity and is not repeated in the model.
-/

/-- Weekday of a day index counted from a Monday, as Python's
`date.weekday()` numbers it. -/
def weekday (d : Nat) : Nat := d % 7

/-- Model of `is_holiday_eve` (lines 55-59): the following day is a
holiday. -/
def is_holiday_eve (d : Nat) (il_holidays : List Nat) : Bool :=
  decide ((d + 1) ∈ il_holidays)

/-- Model of `get_required_hours` (lines 62-84): required work hours for
a date. -/
def get_required_hours (d : Nat) (il_holidays : List Nat) : ℚ :=
  if weekday d = 4 ∨ weekday d = 5 then 0
  else if d ∈ il_holidays then 0
  else if is_holiday_eve d il_holidays then 7.5
  else if weekday d = 3 then 8
  else 8.5

/-- One raw time entry returned by the TimeCamp API: `duration` seconds
and a task `name` (possibly empty). -/
structure Entry where
  duration : Int
  name : String
deriving Repr, DecidableEq

/-- Model of `get_work_hours_and_tasks` (lines 172-190): on a 200
response, total
hours (`sum of durations / 3600`) and the non-empty task names in order;
otherwise `(None, [])`. -/
def get_work_hours_and_tasks (resp : Option (List Entry)) :
    Option ℚ × List String :=
  match resp with
  | some entries =>
      (some ((((entries.map (fun e => e.duration)).sum : ℤ) : ℚ) / 3600),
       (entries.filter (fun e => e.name ≠ "")).map (fun e => e.name))
  | none => (none, [])

/-- One tuple of the `results` list of `fetch_data` (line 117):
`(date, work_hours, tasks, required_hours)`. -/
structure RawRecord where
  date : Nat
  hours : Option ℚ
  tasks : List String
  required : ℚ
deriving Repr

instance : Inhabited RawRecord := ⟨⟨0, none, [], 0⟩⟩

/-- The fetch loop of `fetch_data` (lines 110-117): per date, compute the
required hours and append a record only when `required_hours > 0`. -/
def collectRecords (dates : List Nat) (il_holidays : List Nat)
    (f : Nat → Option (List Entry)) : List RawRecord :=
  match dates with
  | [] => []
  | d :: rest =>
      if 0 < get_required_hours d il_holidays then
        let wt := get_work_hours_and_tasks (f d)
        ⟨d, wt.1, wt.2, get_required_hours d il_holidays⟩ ::
          collectRecords rest il_holidays f
      else collectRecords rest il_holidays f

/-- Column `Daily Difference` (line 130): `Hours.fillna(0) - Required
Hours`. -/
def dailyDiff (r : RawRecord) : ℚ := r.hours.getD 0 - r.required

/-- Column `Running Balance` (line 133): the cumulative sum of the daily
differences up to and including row `i`. -/
def runningBalance (raw : List RawRecord) (i : Nat) : ℚ :=
  ((raw.take (i + 1)).map dailyDiff).sum

/-- Column `Target Balance` (lines 134-136): the negated cumulative sum of
the required hours up to and including row `i`. -/
def targetBalance (raw : List RawRecord) (i : Nat) : ℚ :=
  -((raw.take (i + 1)).map (fun r => r.required)).sum

/-- The status lambda of `fetch_data` (lines 139-158). -/
def statusOf (hours : Option ℚ) (required rb tb : ℚ) : String :=
  match hours with
  | some h =>
      if (tb ≤ rb ∧ h ≤ 11.5) ∨ (rb < tb ∧ required ≤ h) then "OK"
      else "Warning"
  | none => "Warning"

/-- One fully populated DataFrame row of the report. -/
structure DayRecord where
  date : Nat
  hours : Option ℚ
  tasks : List String
  required : ℚ
  dailyDiff : ℚ
  runningBalance : ℚ
  targetBalance : ℚ
  status : String
  missingHours : ℚ
deriving Repr

instance : Inhabited DayRecord := ⟨⟨0, none, [], 0, 0, 0, 0, "", 0⟩⟩

/-- Row `i` of the DataFrame after the column assignments of lines
127-158 (balances, status) and the `Missing Hours` initialisation to `0`
of line 161. -/
def mkRow (raw : List RawRecord) (i : Nat) : DayRecord :=
  let r := raw.getD i default
  { date := r.date
    hours := r.hours
    tasks := r.tasks
    required := r.required
    dailyDiff := dailyDiff r
    runningBalance := runningBalance raw i
    targetBalance := targetBalance raw i
    status := statusOf r.hours r.required (runningBalance raw i)
      (targetBalance raw i)
    missingHours := 0 }

/-- The DataFrame of `fetch_data` before the final-gap update: all rows in
order. -/
def rowsOf (raw : List RawRecord) : List DayRecord :=
  (List.range raw.length).map (mkRow raw)

/-- Model of the update `df.loc[df.index[-1], "Missing Hours"] = m`
(line 166): replace the
last row's `missingHours`. -/
def setLastMissing (m : ℚ) : List DayRecord → List DayRecord
  | [] => []
  | [r] => [{ r with missingHours := m }]
  | r :: s :: rest => r :: setLastMissing m (s :: rest)

/-- Model of `final_gap` (lines 162-164): `Running Balance.iloc[-1] - Target
Balance.iloc[-1]`, the balances at the last assembled record. -/
def finalGap (raw : List RawRecord) : ℚ :=
  runningBalance raw (raw.length - 1) - targetBalance raw (raw.length - 1)

/-- Lines 119-169 of `fetch_data`: an empty `results` list yields the
empty DataFrame; otherwise compute `final_gap` from the last row and,
when it is negative, charge `abs(final_gap)` to the last row. -/
def assembleReport (dates : List Nat) (il_holidays : List Nat)
    (f : Nat → Option (List Entry)) : List DayRecord :=
  if (collectRecords dates il_holidays f).isEmpty then []
  else if finalGap (collectRecords dates il_holidays f) < 0 then
    setLastMissing |finalGap (collectRecords dates il_holidays f)|
      (rowsOf (collectRecords dates il_holidays f))
  else rowsOf (collectRecords dates il_holidays f)

/-- The consecutive dates enumerated by `fetch_data` (lines 88-103):
`first_day + i` for `i < len`. -/
def dateRange (first len : Nat) : List Nat :=
  (List.range len).map (fun i => first + i)

/-- Model of `fetch_data` (lines 87-169), with the month span abstracted to its
first day and day count. -/
def fetch_data (first len : Nat) (il_holidays : List Nat)
    (f : Nat → Option (List Entry)) : List DayRecord :=
  assembleReport (dateRange first len) il_holidays f

/-- What `main` hands to the presentation layer (lines 327 and 431-434):
a report for a non-empty DataFrame, the request-level error message for an
empty one. -/
inductive Outcome where
  | report (rows : List DayRecord)
  | failure
deriving Repr

/-- The branch of `main` on `df.empty` after `fetch_data` (lines 327,
431-434). -/
def mainOutcome (first len : Nat) (il_holidays : List Nat)
    (f : Nat → Option (List Entry)) : Outcome :=
  let df := fetch_data first len il_holidays f
  if df.isEmpty then Outcome.failure else Outcome.report df

/-- The custom-date-range path of `main` (lines 313-320): run `fetch_data`
on the month of `start_date`, then keep the rows with
`start_date <= Date <= end_date`. -/
def customSpanReport (first len : Nat) (il_holidays : List Nat)
    (f : Nat → Option (List Entry)) (startD endD : Nat) : List DayRecord :=
  (fetch_data first len il_holidays f).filter
    (fun r => decide (startD ≤ r.date) && decide (r.date ≤ endD))

/-! ### Structural lemmas about the pipeline -/

theorem setLastMissing_length (m : ℚ) (l : List DayRecord) :
    (setLastMissing m l).length = l.length := by
  induction l with
  | nil => rfl
  | cons r rest ih =>
    cases rest with
    | nil => rfl
    | cons s rest2 => simpa [setLastMissing] using ih

theorem setLastMissing_getD (m : ℚ) (l : List DayRecord) :
    ∀ i, i < l.length →
      (setLastMissing m l).getD i default =
        if i + 1 = l.length then { l.getD i default with missingHours := m }
        else l.getD i default := by
  induction l with
  | nil => intro i h; simp at h
  | cons r rest ih =>
    intro i h
    cases rest with
    | nil =>
      have hi : i = 0 := Nat.lt_one_iff.mp (by simpa using h)
      subst hi
      simp [setLastMissing]
    | cons s rest2 =>
      cases i with
      | zero =>
        have hne : ¬ (0 + 1 = (r :: s :: rest2).length) := by
          simp
        simp [setLastMissing, hne]
      | succ j =>
        have hj : j < (s :: rest2).length := Nat.lt_of_succ_lt_succ h
        have hrec := ih j hj
        have hstep : (setLastMissing m (r :: s :: rest2)).getD (j + 1) default
            = (setLastMissing m (s :: rest2)).getD j default := by
          simp only [setLastMissing, List.getD_cons_succ]
        rw [hstep, hrec, List.getD_cons_succ]
        by_cases hc : j + 1 = (s :: rest2).length
        · rw [if_pos hc, if_pos (by simp only [List.length_cons] at hc ⊢; omega)]
        · rw [if_neg hc, if_neg (by simp only [List.length_cons] at hc ⊢; omega)]

theorem rowsOf_length (raw : List RawRecord) :
    (rowsOf raw).length = raw.length := by
  simp [rowsOf]

theorem rowsOf_getD (raw : List RawRecord) (i : Nat) (h : i < raw.length) :
    (rowsOf raw).getD i default = mkRow raw i := by
  have h2 : i < (rowsOf raw).length := by
    simpa [rowsOf_length] using h
  rw [List.getD_eq_getElem _ _ h2]
  simp [rowsOf]

theorem mkRow_runningBalance (raw : List RawRecord) (i : Nat) :
    (mkRow raw i).runningBalance = runningBalance raw i := rfl

theorem mkRow_targetBalance (raw : List RawRecord) (i : Nat) :
    (mkRow raw i).targetBalance = targetBalance raw i := rfl

theorem assembleReport_length (dates il_holidays : List Nat)
    (f : Nat → Option (List Entry)) :
    (assembleReport dates il_holidays f).length =
      (collectRecords dates il_holidays f).length := by
  by_cases h : (collectRecords dates il_holidays f).isEmpty
  · rw [assembleReport, if_pos h]
    rw [List.isEmpty_iff] at h
    simp [h]
  · rw [assembleReport, if_neg h]
    by_cases hg : finalGap (collectRecords dates il_holidays f) < 0
    · rw [if_pos hg, setLastMissing_length, rowsOf_length]
    · rw [if_neg hg, rowsOf_length]

theorem assembleReport_getD (dates il_holidays : List Nat)
    (f : Nat → Option (List Entry)) (i : Nat)
    (h : i < (collectRecords dates il_holidays f).length) :
    (assembleReport dates il_holidays f).getD i default =
      if i + 1 = (collectRecords dates il_holidays f).length ∧
          finalGap (collectRecords dates il_holidays f) < 0 then
        { mkRow (collectRecords dates il_holidays f) i with
            missingHours := |finalGap (collectRecords dates il_holidays f)| }
      else mkRow (collectRecords dates il_holidays f) i := by
  have hne : ¬ (collectRecords dates il_holidays f).isEmpty := by
    rw [List.isEmpty_iff]
    intro e
    rw [e] at h
    simp at h
  rw [assembleReport, if_neg hne]
  by_cases hg : finalGap (collectRecords dates il_holidays f) < 0
  · rw [if_pos hg, setLastMissing_getD _ _ i (by simpa [rowsOf_length] using h),
      rowsOf_length, rowsOf_getD _ _ h]
    by_cases hc : i + 1 = (collectRecords dates il_holidays f).length
    · rw [if_pos hc, if_pos ⟨hc, hg⟩]
    · rw [if_neg hc, if_neg (by intro hand; exact hc hand.1)]
  · rw [if_neg hg, rowsOf_getD _ _ h,
      if_neg (by intro hand; exact hg hand.2)]

/-! ### Ledger lemmas -/

theorem runningBalance_zero (raw : List RawRecord) (h : raw ≠ []) :
    runningBalance raw 0 = dailyDiff (raw.getD 0 default) := by
  cases raw with
  | nil => exact absurd rfl h
  | cons r rest => simp [runningBalance]

theorem runningBalance_succ (raw : List RawRecord) (i : Nat)
    (h : i + 1 < raw.length) :
    runningBalance raw (i + 1) =
      runningBalance raw i + dailyDiff (raw.getD (i + 1) default) := by
  unfold runningBalance
  rw [List.take_succ, List.getElem?_eq_getElem h, List.map_append,
    List.sum_append, List.getD_eq_getElem _ _ h]
  simp

theorem targetBalance_zero (raw : List RawRecord) (h : raw ≠ []) :
    targetBalance raw 0 = -(raw.getD 0 default).required := by
  cases raw with
  | nil => exact absurd rfl h
  | cons r rest => simp [targetBalance]

theorem targetBalance_succ (raw : List RawRecord) (i : Nat)
    (h : i + 1 < raw.length) :
    targetBalance raw (i + 1) =
      targetBalance raw i - (raw.getD (i + 1) default).required := by
  unfold targetBalance
  rw [List.take_succ, List.getElem?_eq_getElem h, List.map_append,
    List.sum_append, List.getD_eq_getElem _ _ h]
  simp
  ring

theorem runningBalance_last (raw : List RawRecord) (h : raw ≠ []) :
    runningBalance raw (raw.length - 1) = (raw.map dailyDiff).sum := by
  have hlen : 0 < raw.length := List.length_pos.mpr h
  unfold runningBalance
  rw [show raw.length - 1 + 1 = raw.length by omega, List.take_length]

theorem targetBalance_antitone (raw : List RawRecord)
    (hreq : ∀ r ∈ raw, 0 ≤ r.required) (i j : Nat) (hij : i ≤ j) :
    targetBalance raw j ≤ targetBalance raw i := by
  unfold targetBalance
  have hdecomp : raw.take (i + 1 + (j - i)) =
      raw.take (i + 1) ++ (raw.drop (i + 1)).take (j - i) :=
    List.take_add raw (i + 1) (j - i)
  rw [neg_le_neg_iff, show j + 1 = i + 1 + (j - i) by omega,
    hdecomp, List.map_append, List.sum_append]
  have h0 :
      0 ≤ (((raw.drop (i + 1)).take (j - i)).map (fun r => r.required)).sum := by
    apply List.sum_nonneg
    intro x hx
    rcases List.mem_map.mp hx with ⟨r, hr, hxr⟩
    rw [← hxr]
    exact hreq r ((List.drop_sublist _ _).mem ((List.take_sublist _ _).mem hr))
  linarith

theorem sum_dailyDiff_add_required (l : List RawRecord) :
    (l.map dailyDiff).sum + (l.map (fun r => r.required)).sum =
      (l.map (fun r => r.hours.getD 0)).sum := by
  induction l with
  | nil => simp
  | cons r rest ih =>
    simp only [List.map_cons, List.sum_cons, dailyDiff]
    linarith

theorem runningBalance_sub_targetBalance (raw : List RawRecord) (i : Nat) :
    runningBalance raw i - targetBalance raw i =
      ((raw.take (i + 1)).map (fun r => r.hours.getD 0)).sum := by
  unfold runningBalance targetBalance
  rw [sub_neg_eq_add, sum_dailyDiff_add_required]

/-! ### Lemmas about the fetch loop -/

theorem collectRecords_mem (dates il_holidays : List Nat)
    (f : Nat → Option (List Entry)) :
    ∀ r ∈ collectRecords dates il_holidays f,
      r.date ∈ dates ∧
        r.required = get_required_hours r.date il_holidays ∧
        0 < r.required ∧
        (r.hours, r.tasks) = get_work_hours_and_tasks (f r.date) := by
  induction dates with
  | nil => intro r hr; simp [collectRecords] at hr
  | cons d rest ih =>
    intro r hr
    rw [collectRecords] at hr
    by_cases hc : 0 < get_required_hours d il_holidays
    · rw [if_pos hc] at hr
      rcases List.mem_cons.mp hr with he | hm
      · subst he
        exact ⟨by simp, rfl, hc, rfl⟩
      · rcases ih r hm with ⟨h1, h2, h3, h4⟩
        exact ⟨by simp [h1], h2, h3, h4⟩
    · rw [if_neg hc] at hr
      rcases ih r hr with ⟨h1, h2, h3, h4⟩
      exact ⟨by simp [h1], h2, h3, h4⟩

theorem collectRecords_filter_reportable (dates il_holidays : List Nat)
    (f : Nat → Option (List Entry)) :
    collectRecords
        (dates.filter (fun d => decide (0 < get_required_hours d il_holidays)))
        il_holidays f =
      collectRecords dates il_holidays f := by
  induction dates with
  | nil => rfl
  | cons d rest ih =>
    rw [List.filter_cons]
    by_cases hc : 0 < get_required_hours d il_holidays
    · rw [if_pos (by simpa using hc)]
      rw [collectRecords, if_pos hc, collectRecords, if_pos hc, ih]
    · rw [if_neg (by simpa using hc)]
      rw [ih, collectRecords, if_neg hc]

theorem collectRecords_shape (dates il_holidays : List Nat)
    (f g : Nat → Option (List Entry)) :
    (collectRecords dates il_holidays f).map (fun r => (r.date, r.required)) =
      (collectRecords dates il_holidays g).map (fun r => (r.date, r.required)) := by
  induction dates with
  | nil => rfl
  | cons d rest ih =>
    by_cases hc : 0 < get_required_hours d il_holidays
    · rw [collectRecords, if_pos hc, collectRecords, if_pos hc,
        List.map_cons, List.map_cons, ih]
    · rw [collectRecords, if_neg hc, collectRecords, if_neg hc, ih]

theorem collectRecords_hours_none (dates il_holidays : List Nat)
    (f : Nat → Option (List Entry)) (hf : ∀ d, f d = none) :
    ∀ r ∈ collectRecords dates il_holidays f, r.hours = none := by
  intro r hr
  rcases collectRecords_mem dates il_holidays f r hr with ⟨_, _, _, h4⟩
  have hfst := congrArg Prod.fst h4
  simpa [hf r.date, get_work_hours_and_tasks] using hfst

theorem collectRecords_dates_sublist (dates il_holidays : List Nat)
    (f : Nat → Option (List Entry)) :
    List.Sublist ((collectRecords dates il_holidays f).map (fun r => r.date))
      dates := by
  induction dates with
  | nil => simp [collectRecords]
  | cons d rest ih =>
    by_cases hc : 0 < get_required_hours d il_holidays
    · rw [collectRecords, if_pos hc, List.map_cons]
      exact ih.cons₂ d
    · rw [collectRecords, if_neg hc]
      exact ih.cons d

/-! ### Field transfer through the row-building steps -/

theorem rowsOf_map_proj {α : Type} (p : DayRecord → α) (q : RawRecord → α)
    (hpq : ∀ (raw : List RawRecord) (i : Nat),
      p (mkRow raw i) = q (raw.getD i default))
    (raw : List RawRecord) :
    (rowsOf raw).map p = raw.map q := by
  apply List.ext_getElem
  · simp [rowsOf]
  · intro n h1 h2
    have hn : n < raw.length := by simpa using h2
    have hn2 : n < (rowsOf raw).length := by simpa [rowsOf_length] using hn
    rw [List.getElem_map, List.getElem_map,
      ← List.getD_eq_getElem (rowsOf raw) default hn2, rowsOf_getD raw n hn,
      hpq raw n, List.getD_eq_getElem _ _ hn]

theorem setLastMissing_map_proj {α : Type} (p : DayRecord → α)
    (hp : ∀ (r : DayRecord) (m : ℚ), p { r with missingHours := m } = p r)
    (m : ℚ) (l : List DayRecord) :
    (setLastMissing m l).map p = l.map p := by
  induction l with
  | nil => rfl
  | cons r rest ih =>
    cases rest with
    | nil => simp [setLastMissing, hp]
    | cons s rest2 =>
      rw [setLastMissing, List.map_cons, ih]
      simp

theorem assembleReport_map_proj {α : Type} (p : DayRecord → α)
    (q : RawRecord → α)
    (hpq : ∀ (raw : List RawRecord) (i : Nat),
      p (mkRow raw i) = q (raw.getD i default))
    (hp : ∀ (r : DayRecord) (m : ℚ), p { r with missingHours := m } = p r)
    (dates il_holidays : List Nat) (f : Nat → Option (List Entry)) :
    (assembleReport dates il_holidays f).map p =
      (collectRecords dates il_holidays f).map q := by
  rw [assembleReport]
  by_cases h : (collectRecords dates il_holidays f).isEmpty
  · rw [if_pos h]
    rw [List.isEmpty_iff] at h
    simp [h]
  · rw [if_neg h]
    by_cases hg : finalGap (collectRecords dates il_holidays f) < 0
    · rw [if_pos hg, setLastMissing_map_proj p hp, rowsOf_map_proj p q hpq]
    · rw [if_neg hg, rowsOf_map_proj p q hpq]

theorem assembleReport_eq_nil_iff (dates il_holidays : List Nat)
    (f : Nat → Option (List Entry)) :
    assembleReport dates il_holidays f = [] ↔
      collectRecords dates il_holidays f = [] := by
  constructor
  · intro h
    have hlen := assembleReport_length dates il_holidays f
    rw [h] at hlen
    exact List.length_eq_zero.mp hlen.symm
  · intro h
    rw [assembleReport, if_pos (by simp [h])]

/-- Record `i` of an assembled report (out-of-range indices give the
`Inhabited` default, never used under the stated bounds). -/
def reportRow (first len : Nat) (il_holidays : List Nat)
    (f : Nat → Option (List Entry)) (i : Nat) : DayRecord :=
  (fetch_data first len il_holidays f).getD i default

theorem fetch_data_length (first len : Nat) (il_holidays : List Nat)
    (f : Nat → Option (List Entry)) :
    (fetch_data first len il_holidays f).length =
      (collectRecords (dateRange first len) il_holidays f).length :=
  assembleReport_length _ _ _

theorem reportRow_eq_mkRow_update (first len : Nat) (il_holidays : List Nat)
    (f : Nat → Option (List Entry)) (i : Nat)
    (h : i < (collectRecords (dateRange first len) il_holidays f).length) :
    reportRow first len il_holidays f i =
      { mkRow (collectRecords (dateRange first len) il_holidays f) i with
          missingHours :=
            if i + 1 = (collectRecords (dateRange first len) il_holidays f).length ∧
                finalGap (collectRecords (dateRange first len) il_holidays f) < 0
            then |finalGap (collectRecords (dateRange first len) il_holidays f)|
            else 0 } := by
  unfold reportRow fetch_data
  rw [assembleReport_getD _ _ _ i h]
  by_cases hc : i + 1 = (collectRecords (dateRange first len) il_holidays f).length ∧
      finalGap (collectRecords (dateRange first len) il_holidays f) < 0
  · rw [if_pos hc, if_pos hc]
  · rw [if_neg hc, if_neg hc]
    rfl

theorem mkRow_date (raw : List RawRecord) (i : Nat) :
    (mkRow raw i).date = (raw.getD i default).date := rfl

theorem mkRow_hours (raw : List RawRecord) (i : Nat) :
    (mkRow raw i).hours = (raw.getD i default).hours := rfl

theorem mkRow_required (raw : List RawRecord) (i : Nat) :
    (mkRow raw i).required = (raw.getD i default).required := rfl

theorem mkRow_dailyDiff (raw : List RawRecord) (i : Nat) :
    (mkRow raw i).dailyDiff = dailyDiff (raw.getD i default) := rfl

theorem mkRow_status (raw : List RawRecord) (i : Nat) :
    (mkRow raw i).status =
      statusOf (raw.getD i default).hours (raw.getD i default).required
        (runningBalance raw i) (targetBalance raw i) := rfl

theorem mkRow_missingHours (raw : List RawRecord) (i : Nat) :
    (mkRow raw i).missingHours = 0 := rfl

theorem rowsOf_mem (raw : List RawRecord) :
    ∀ r ∈ rowsOf raw, ∃ i, i < raw.length ∧ r = mkRow raw i := by
  intro r hr
  rcases List.mem_map.mp hr with ⟨i, hi, he⟩
  exact ⟨i, List.mem_range.mp hi, he.symm⟩

theorem setLastMissing_mem (m : ℚ) (l : List DayRecord) :
    ∀ r ∈ setLastMissing m l,
      ∃ r0 ∈ l, r = r0 ∨ r = { r0 with missingHours := m } := by
  induction l with
  | nil => intro r hr; simp [setLastMissing] at hr
  | cons a rest ih =>
    intro r hr
    cases rest with
    | nil =>
      rw [setLastMissing] at hr
      rcases List.mem_singleton.mp hr with he
      exact ⟨a, List.mem_singleton.mpr rfl, Or.inr he⟩
    | cons s rest2 =>
      rw [setLastMissing] at hr
      rcases List.mem_cons.mp hr with he | hm
      · exact ⟨a, List.mem_cons_self a _, Or.inl he⟩
      · rcases ih r hm with ⟨r0, hr0, hor⟩
        exact ⟨r0, List.mem_cons_of_mem a hr0, hor⟩

theorem assembleReport_mem (dates il_holidays : List Nat)
    (f : Nat → Option (List Entry)) :
    ∀ r ∈ assembleReport dates il_holidays f,
      ∃ i, i < (collectRecords dates il_holidays f).length ∧
        (r = mkRow (collectRecords dates il_holidays f) i ∨
          r = { mkRow (collectRecords dates il_holidays f) i with
                  missingHours :=
                    |finalGap (collectRecords dates il_holidays f)| }) := by
  intro r hr
  rw [assembleReport] at hr
  by_cases h : (collectRecords dates il_holidays f).isEmpty
  · rw [if_pos h] at hr
    simp at hr
  · rw [if_neg h] at hr
    by_cases hg : finalGap (collectRecords dates il_holidays f) < 0
    · rw [if_pos hg] at hr
      rcases setLastMissing_mem _ _ r hr with ⟨r0, hr0, hor⟩
      rcases rowsOf_mem _ r0 hr0 with ⟨i, hi, he⟩
      rcases hor with h1 | h2
      · exact ⟨i, hi, Or.inl (h1.trans he)⟩
      · exact ⟨i, hi, Or.inr (by rw [h2, he])⟩
    · rw [if_neg hg] at hr
      rcases rowsOf_mem _ r hr with ⟨i, hi, he⟩
      exact ⟨i, hi, Or.inl he⟩

theorem getD_mem (raw : List RawRecord) (i : Nat) (h : i < raw.length) :
    raw.getD i default ∈ raw := by
  rw [List.getD_eq_getElem _ _ h]
  exact List.getElem_mem h

theorem update_date (r : DayRecord) (m : ℚ) :
    ({ r with missingHours := m }).date = r.date := rfl

theorem update_hours (r : DayRecord) (m : ℚ) :
    ({ r with missingHours := m }).hours = r.hours := rfl

theorem update_required (r : DayRecord) (m : ℚ) :
    ({ r with missingHours := m }).required = r.required := rfl

theorem update_dailyDiff (r : DayRecord) (m : ℚ) :
    ({ r with missingHours := m }).dailyDiff = r.dailyDiff := rfl

theorem update_runningBalance (r : DayRecord) (m : ℚ) :
    ({ r with missingHours := m }).runningBalance = r.runningBalance := rfl

theorem update_targetBalance (r : DayRecord) (m : ℚ) :
    ({ r with missingHours := m }).targetBalance = r.targetBalance := rfl

theorem update_status (r : DayRecord) (m : ℚ) :
    ({ r with missingHours := m }).status = r.status := rfl

theorem update_missingHours (r : DayRecord) (m : ℚ) :
    ({ r with missingHours := m }).missingHours = m := rfl

theorem assembleReport_map_dailyDiff (dates il_holidays : List Nat)
    (f : Nat → Option (List Entry)) :
    (assembleReport dates il_holidays f).map (fun r => r.dailyDiff) =
      (collectRecords dates il_holidays f).map dailyDiff :=
  assembleReport_map_proj (fun r => r.dailyDiff) dailyDiff
    (fun _ _ => rfl) (fun _ _ => rfl) dates il_holidays f

theorem assembleReport_map_hours (dates il_holidays : List Nat)
    (f : Nat → Option (List Entry)) :
    (assembleReport dates il_holidays f).map (fun r => r.hours) =
      (collectRecords dates il_holidays f).map (fun x => x.hours) :=
  assembleReport_map_proj (fun r => r.hours) (fun x => x.hours)
    (fun _ _ => rfl) (fun _ _ => rfl) dates il_holidays f

theorem assembleReport_map_hoursD (dates il_holidays : List Nat)
    (f : Nat → Option (List Entry)) :
    (assembleReport dates il_holidays f).map (fun r => r.hours.getD 0) =
      (collectRecords dates il_holidays f).map (fun x => x.hours.getD 0) :=
  assembleReport_map_proj (fun r => r.hours.getD 0) (fun x => x.hours.getD 0)
    (fun _ _ => rfl) (fun _ _ => rfl) dates il_holidays f

theorem assembleReport_map_shape (dates il_holidays : List Nat)
    (f : Nat → Option (List Entry)) :
    (assembleReport dates il_holidays f).map (fun r => (r.date, r.required)) =
      (collectRecords dates il_holidays f).map (fun x => (x.date, x.required)) :=
  assembleReport_map_proj (fun r => (r.date, r.required))
    (fun x => (x.date, x.required))
    (fun _ _ => rfl) (fun _ _ => rfl) dates il_holidays f

/-! ### Claim C3: calendar policy precedence -/

/-- C3: the Calendar Policy Resolver applies its rules in precedence
order: a Friday or Saturday gets `requiredHours = 0`; otherwise a holiday
gets `0`; otherwise a date whose next day is a holiday gets `7.5`
(pre-empting the Thursday rule and the default, whichever weekday it is);
otherwise Thursday gets `8`; every remaining weekday gets `8.5`. -/
theorem C3_policy_precedence (d : Nat) (il_holidays : List Nat) :
    (weekday d = 4 ∨ weekday d = 5 → get_required_hours d il_holidays = 0) ∧
    (¬(weekday d = 4 ∨ weekday d = 5) → d ∈ il_holidays →
      get_required_hours d il_holidays = 0) ∧
    (¬(weekday d = 4 ∨ weekday d = 5) → d ∉ il_holidays →
      (d + 1) ∈ il_holidays → get_required_hours d il_holidays = 7.5) ∧
    (¬(weekday d = 4 ∨ weekday d = 5) → d ∉ il_holidays →
      (d + 1) ∉ il_holidays → weekday d = 3 →
      get_required_hours d il_holidays = 8) ∧
    (¬(weekday d = 4 ∨ weekday d = 5) → d ∉ il_holidays →
      (d + 1) ∉ il_holidays → weekday d ≠ 3 →
      get_required_hours d il_holidays = 8.5) := by
  refine ⟨?_, ?_, ?_, ?_, ?_⟩ <;> intros <;>
    simp [get_required_hours, is_holiday_eve, *]

/-- Witness for C3 at a concrete holiday eve: Monday `d = 0` whose next
day is the holiday `1` is required `7.5` hours even though its weekday
alone would give `8.5`. -/
theorem C3_witness : get_required_hours 0 [1] = 7.5 :=
  (C3_policy_precedence 0 [1]).2.2.1 (by decide) (by decide) (by decide)

/-! ### Claim C10: daily aggregator and local failure absorption -/

/-- C10: on a successful fetch, `workedHours` is the entries' total
duration in seconds divided by 3600 and `taskLabels` is the subsequence of
non-empty task names in entry order (duplicates kept); on a failed fetch
the result is `(None, [])`; and the failure is absorbed locally — the
dates and required hours of the assembled report do not depend on the
fetch outcomes at all. -/
theorem C10_daily_aggregator :
    (∀ entries : List Entry,
      (get_work_hours_and_tasks (some entries)).1 =
        some ((((entries.map (fun e => e.duration)).sum : ℤ) : ℚ) / 3600) ∧
      (get_work_hours_and_tasks (some entries)).2 =
        (entries.filter (fun e => e.name ≠ "")).map (fun e => e.name) ∧
      List.Sublist ((get_work_hours_and_tasks (some entries)).2)
        (entries.map (fun e => e.name))) ∧
    get_work_hours_and_tasks none = (none, []) ∧
    (∀ (dates il_holidays : List Nat) (f g : Nat → Option (List Entry)),
      (assembleReport dates il_holidays f).map (fun r => (r.date, r.required)) =
        (assembleReport dates il_holidays g).map (fun r => (r.date, r.required))) := by
  refine ⟨fun entries => ⟨rfl, rfl, ?_⟩, rfl, fun dates il_holidays f g => ?_⟩
  · exact (List.filter_sublist entries).map (fun e => e.name)
  · rw [assembleReport_map_shape, assembleReport_map_shape,
      collectRecords_shape dates il_holidays f g]

/-! ### Claim C1: ledger recurrences -/

/-- C1: in every assembled report, `dailyDifference` is worked-or-zero
minus required; `runningBalance` satisfies
`runningBalance[i] = runningBalance[i-1] + dailyDifference[i]` seeded at
`0`; `targetBalance` satisfies
`targetBalance[i] = targetBalance[i-1] - requiredHours[i]` seeded at `0`;
for non-empty reports the last running balance is the sum of all daily
differences; and the target balance is non-increasing. -/
theorem C1_ledger_recurrences (first len : Nat) (il_holidays : List Nat)
    (f : Nat → Option (List Entry)) :
    (∀ i, i < (fetch_data first len il_holidays f).length →
      (reportRow first len il_holidays f i).dailyDiff =
        (reportRow first len il_holidays f i).hours.getD 0 -
          (reportRow first len il_holidays f i).required) ∧
    (0 < (fetch_data first len il_holidays f).length →
      (reportRow first len il_holidays f 0).runningBalance =
        0 + (reportRow first len il_holidays f 0).dailyDiff) ∧
    (∀ i, i + 1 < (fetch_data first len il_holidays f).length →
      (reportRow first len il_holidays f (i + 1)).runningBalance =
        (reportRow first len il_holidays f i).runningBalance +
          (reportRow first len il_holidays f (i + 1)).dailyDiff) ∧
    (0 < (fetch_data first len il_holidays f).length →
      (reportRow first len il_holidays f 0).targetBalance =
        0 - (reportRow first len il_holidays f 0).required) ∧
    (∀ i, i + 1 < (fetch_data first len il_holidays f).length →
      (reportRow first len il_holidays f (i + 1)).targetBalance =
        (reportRow first len il_holidays f i).targetBalance -
          (reportRow first len il_holidays f (i + 1)).required) ∧
    (fetch_data first len il_holidays f ≠ [] →
      (reportRow first len il_holidays f
          ((fetch_data first len il_holidays f).length - 1)).runningBalance =
        ((fetch_data first len il_holidays f).map (fun r => r.dailyDiff)).sum) ∧
    (∀ i j, i ≤ j → j < (fetch_data first len il_holidays f).length →
      (reportRow first len il_holidays f j).targetBalance ≤
        (reportRow first len il_holidays f i).targetBalance) := by
  have hlen := fetch_data_length first len il_holidays f
  refine ⟨?_, ?_, ?_, ?_, ?_, ?_, ?_⟩
  · intro i hi
    have hi2 : i < (collectRecords (dateRange first len) il_holidays f).length := by
      omega
    rw [reportRow_eq_mkRow_update first len il_holidays f i hi2,
      update_dailyDiff, update_hours, update_required,
      mkRow_dailyDiff, mkRow_hours, mkRow_required]
    rfl
  · intro h0
    have h02 : 0 < (collectRecords (dateRange first len) il_holidays f).length := by
      omega
    have hne : collectRecords (dateRange first len) il_holidays f ≠ [] :=
      List.ne_nil_of_length_pos h02
    rw [reportRow_eq_mkRow_update first len il_holidays f 0 h02,
      update_runningBalance, update_dailyDiff,
      mkRow_runningBalance, mkRow_dailyDiff,
      runningBalance_zero _ hne, zero_add]
  · intro i hi
    have hi2 : i + 1 < (collectRecords (dateRange first len) il_holidays f).length := by
      omega
    rw [reportRow_eq_mkRow_update first len il_holidays f (i + 1) hi2,
      reportRow_eq_mkRow_update first len il_holidays f i (by omega),
      update_runningBalance, update_runningBalance, update_dailyDiff,
      mkRow_runningBalance, mkRow_runningBalance, mkRow_dailyDiff,
      runningBalance_succ _ i hi2]
  · intro h0
    have h02 : 0 < (collectRecords (dateRange first len) il_holidays f).length := by
      omega
    have hne : collectRecords (dateRange first len) il_holidays f ≠ [] :=
      List.ne_nil_of_length_pos h02
    rw [reportRow_eq_mkRow_update first len il_holidays f 0 h02,
      update_targetBalance, update_required,
      mkRow_targetBalance, mkRow_required,
      targetBalance_zero _ hne, zero_sub]
  · intro i hi
    have hi2 : i + 1 < (collectRecords (dateRange first len) il_holidays f).length := by
      omega
    rw [reportRow_eq_mkRow_update first len il_holidays f (i + 1) hi2,
      reportRow_eq_mkRow_update first len il_holidays f i (by omega),
      update_targetBalance, update_targetBalance, update_required,
      mkRow_targetBalance, mkRow_targetBalance, mkRow_required,
      targetBalance_succ _ i hi2]
  · intro hne
    have hne2 : collectRecords (dateRange first len) il_holidays f ≠ [] := by
      intro e
      exact hne ((assembleReport_eq_nil_iff _ _ _).mpr e)
    have hpos : 0 < (collectRecords (dateRange first len) il_holidays f).length :=
      List.length_pos.mpr hne2
    have hlt : (fetch_data first len il_holidays f).length - 1 <
        (collectRecords (dateRange first len) il_holidays f).length := by
      omega
    rw [reportRow_eq_mkRow_update first len il_holidays f _ hlt,
      update_runningBalance, mkRow_runningBalance, hlen,
      runningBalance_last _ hne2]
    rw [show (fetch_data first len il_holidays f).map (fun r => r.dailyDiff) =
        (collectRecords (dateRange first len) il_holidays f).map dailyDiff from
      assembleReport_map_dailyDiff _ _ _]
  · intro i j hij hj
    have hj2 : j < (collectRecords (dateRange first len) il_holidays f).length := by
      omega
    rw [reportRow_eq_mkRow_update first len il_holidays f j hj2,
      reportRow_eq_mkRow_update first len il_holidays f i (by omega),
      update_targetBalance, update_targetBalance,
      mkRow_targetBalance, mkRow_targetBalance]
    apply targetBalance_antitone _ _ i j hij
    intro r hr
    rcases collectRecords_mem _ _ _ r hr with ⟨_, _, h3, _⟩
    exact le_of_lt h3

/-! ### Claim C2: status classifier -/

/-- C2: for every assembled record, the status is `OK` or `Warning`; an
absent `workedHours` always gives `Warning`; and the status is `OK` if
and only if `workedHours` is present and either the running balance is at
least the target balance with at most `11.5` credited hours, or the
running balance is below the target balance with at least the required
hours worked. -/
theorem C2_status_classifier (first len : Nat) (il_holidays : List Nat)
    (f : Nat → Option (List Entry)) :
    ∀ i, i < (fetch_data first len il_holidays f).length →
      ((reportRow first len il_holidays f i).status = "OK" ∨
        (reportRow first len il_holidays f i).status = "Warning") ∧
      ((reportRow first len il_holidays f i).hours = none →
        (reportRow first len il_holidays f i).status = "Warning") ∧
      ((reportRow first len il_holidays f i).status = "OK" ↔
        ∃ h : ℚ, (reportRow first len il_holidays f i).hours = some h ∧
          (((reportRow first len il_holidays f i).targetBalance ≤
              (reportRow first len il_holidays f i).runningBalance ∧
              h ≤ 11.5) ∨
            ((reportRow first len il_holidays f i).runningBalance <
              (reportRow first len il_holidays f i).targetBalance ∧
              (reportRow first len il_holidays f i).required ≤ h))) := by
  have hlen := fetch_data_length first len il_holidays f
  intro i hi
  have hi2 : i < (collectRecords (dateRange first len) il_holidays f).length := by
    omega
  have hOW : ("Warning" : String) ≠ "OK" := by decide
  rw [reportRow_eq_mkRow_update first len il_holidays f i hi2,
    update_status, update_hours, update_required,
    update_runningBalance, update_targetBalance,
    mkRow_status, mkRow_hours, mkRow_required,
    mkRow_runningBalance, mkRow_targetBalance]
  rcases hh : ((collectRecords (dateRange first len) il_holidays f).getD
      i default).hours with _ | h
  · refine ⟨Or.inr rfl, fun _ => rfl, ?_⟩
    constructor
    · intro habs
      exact absurd habs hOW
    · rintro ⟨h2, hh2, _⟩
      exact absurd hh2 (by simp)
  · by_cases hc :
        (targetBalance (collectRecords (dateRange first len) il_holidays f) i ≤
            runningBalance (collectRecords (dateRange first len) il_holidays f) i ∧
          h ≤ 11.5) ∨
        (runningBalance (collectRecords (dateRange first len) il_holidays f) i <
            targetBalance (collectRecords (dateRange first len) il_holidays f) i ∧
          ((collectRecords (dateRange first len) il_holidays f).getD
            i default).required ≤ h)
    · have hstat :
          statusOf (some h)
            ((collectRecords (dateRange first len) il_holidays f).getD
              i default).required
            (runningBalance (collectRecords (dateRange first len) il_holidays f) i)
            (targetBalance (collectRecords (dateRange first len) il_holidays f) i) =
          "OK" := if_pos hc
      rw [hstat]
      exact ⟨Or.inl rfl, fun hcon => absurd hcon (by simp),
        ⟨fun _ => ⟨h, rfl, hc⟩, fun _ => rfl⟩⟩
    · have hstat :
          statusOf (some h)
            ((collectRecords (dateRange first len) il_holidays f).getD
              i default).required
            (runningBalance (collectRecords (dateRange first len) il_holidays f) i)
            (targetBalance (collectRecords (dateRange first len) il_holidays f) i) =
          "Warning" := if_neg hc
      rw [hstat]
      refine ⟨Or.inr rfl, fun _ => rfl, ?_⟩
      constructor
      · intro habs
        exact absurd habs hOW
      · rintro ⟨h2, hh2, hcond⟩
        have hh3 : h2 = h := by
          injection hh2 with hinj
          exact hinj.symm
        subst hh3
        exact absurd hcond hc

/-! ### Claim C4: missing-hours attribution -/

/-- C4: in a non-empty report, with `finalGap` the last record's running
balance minus its target balance, the last record's `missingHours` is
`|finalGap|` when `finalGap < 0` and `0` otherwise, and every record
other than the last has `missingHours = 0`. -/
theorem C4_missing_hours_attribution (first len : Nat)
    (il_holidays : List Nat) (f : Nat → Option (List Entry))
    (hne : fetch_data first len il_holidays f ≠ []) :
    ((reportRow first len il_holidays f
          ((fetch_data first len il_holidays f).length - 1)).runningBalance -
        (reportRow first len il_holidays f
          ((fetch_data first len il_holidays f).length - 1)).targetBalance < 0 →
      (reportRow first len il_holidays f
          ((fetch_data first len il_holidays f).length - 1)).missingHours =
        |(reportRow first len il_holidays f
            ((fetch_data first len il_holidays f).length - 1)).runningBalance -
          (reportRow first len il_holidays f
            ((fetch_data first len il_holidays f).length - 1)).targetBalance|) ∧
    (0 ≤ (reportRow first len il_holidays f
          ((fetch_data first len il_holidays f).length - 1)).runningBalance -
        (reportRow first len il_holidays f
          ((fetch_data first len il_holidays f).length - 1)).targetBalance →
      (reportRow first len il_holidays f
          ((fetch_data first len il_holidays f).length - 1)).missingHours = 0) ∧
    (∀ i, i + 1 < (fetch_data first len il_holidays f).length →
      (reportRow first len il_holidays f i).missingHours = 0) := by
  have hlen := fetch_data_length first len il_holidays f
  have hne2 : collectRecords (dateRange first len) il_holidays f ≠ [] := by
    intro e
    exact hne ((assembleReport_eq_nil_iff _ _ _).mpr e)
  have hpos : 0 < (collectRecords (dateRange first len) il_holidays f).length :=
    List.length_pos.mpr hne2
  have hlt : (fetch_data first len il_holidays f).length - 1 <
      (collectRecords (dateRange first len) il_holidays f).length := by
    omega
  have hlast : (fetch_data first len il_holidays f).length - 1 + 1 =
      (collectRecords (dateRange first len) il_holidays f).length := by
    omega
  have hgap :
      (reportRow first len il_holidays f
          ((fetch_data first len il_holidays f).length - 1)).runningBalance -
        (reportRow first len il_holidays f
          ((fetch_data first len il_holidays f).length - 1)).targetBalance =
      finalGap (collectRecords (dateRange first len) il_holidays f) := by
    rw [reportRow_eq_mkRow_update first len il_holidays f _ hlt,
      update_runningBalance, update_targetBalance,
      mkRow_runningBalance, mkRow_targetBalance, finalGap, hlen]
  refine ⟨?_, ?_, ?_⟩
  · intro hneg
    rw [hgap] at hneg
    rw [hgap, reportRow_eq_mkRow_update first len il_holidays f _ hlt,
      update_missingHours, if_pos ⟨hlast, hneg⟩]
  · intro hge
    rw [hgap] at hge
    rw [reportRow_eq_mkRow_update first len il_holidays f _ hlt,
      update_missingHours, if_neg (by intro hand; linarith [hand.2])]
  · intro i hi
    have hi2 : i < (collectRecords (dateRange first len) il_holidays f).length := by
      omega
    rw [reportRow_eq_mkRow_update first len il_holidays f i hi2,
      update_missingHours, if_neg (by intro hand; exact absurd hand.1 (by omega))]

theorem fetch_data_map_hours (first len : Nat) (il_holidays : List Nat)
    (f : Nat → Option (List Entry)) :
    (fetch_data first len il_holidays f).map (fun r => r.hours) =
      (collectRecords (dateRange first len) il_holidays f).map
        (fun x => x.hours) :=
  assembleReport_map_hours _ _ _

theorem fetch_data_map_hoursD (first len : Nat) (il_holidays : List Nat)
    (f : Nat → Option (List Entry)) :
    (fetch_data first len il_holidays f).map (fun r => r.hours.getD 0) =
      (collectRecords (dateRange first len) il_holidays f).map
        (fun x => x.hours.getD 0) :=
  assembleReport_map_hoursD _ _ _

/-! ### Claim C5: the balance gap is the cumulative worked hours -/

/-- C5: for every record, the running balance minus the target balance
equals the sum of the worked hours (zero when absent) over the records up
to and including it; under the data model's non-negative worked hours
this is non-negative, so every record has
`runningBalance >= targetBalance`. -/
theorem C5_balance_gap_invariant (first len : Nat) (il_holidays : List Nat)
    (f : Nat → Option (List Entry))
    (hw : ∀ r ∈ fetch_data first len il_holidays f, 0 ≤ r.hours.getD 0) :
    ∀ i, i < (fetch_data first len il_holidays f).length →
      ((reportRow first len il_holidays f i).runningBalance -
          (reportRow first len il_holidays f i).targetBalance =
        (((fetch_data first len il_holidays f).take (i + 1)).map
            (fun r => r.hours.getD 0)).sum) ∧
      0 ≤ (reportRow first len il_holidays f i).runningBalance -
          (reportRow first len il_holidays f i).targetBalance ∧
      (reportRow first len il_holidays f i).targetBalance ≤
        (reportRow first len il_holidays f i).runningBalance := by
  have hlen := fetch_data_length first len il_holidays f
  intro i hi
  have hi2 : i < (collectRecords (dateRange first len) il_holidays f).length := by
    omega
  have hsum :
      (((fetch_data first len il_holidays f).take (i + 1)).map
          (fun r => r.hours.getD 0)).sum =
      (((collectRecords (dateRange first len) il_holidays f).take (i + 1)).map
          (fun x => x.hours.getD 0)).sum := by
    rw [List.map_take, List.map_take, fetch_data_map_hoursD]
  have hmain :
      (reportRow first len il_holidays f i).runningBalance -
        (reportRow first len il_holidays f i).targetBalance =
      (((fetch_data first len il_holidays f).take (i + 1)).map
          (fun r => r.hours.getD 0)).sum := by
    rw [reportRow_eq_mkRow_update first len il_holidays f i hi2,
      update_runningBalance, update_targetBalance,
      mkRow_runningBalance, mkRow_targetBalance, hsum,
      runningBalance_sub_targetBalance]
  have hnn :
      0 ≤ (((fetch_data first len il_holidays f).take (i + 1)).map
          (fun r => r.hours.getD 0)).sum := by
    apply List.sum_nonneg
    intro x hx
    rcases List.mem_map.mp hx with ⟨r, hr, hre⟩
    rw [← hre]
    exact hw r ((List.take_sublist _ _).mem hr)
  refine ⟨hmain, ?_, ?_⟩
  · rw [hmain]
    exact hnn
  · have := hmain ▸ hnn
    linarith

/-! ### Claim C6: with non-negative worked hours nothing is missing -/

/-- C6: when all worked hours are non-negative, the final gap is
non-negative, the `final_gap < 0` branch never executes (the report is
exactly the untouched rows), and every record has `missingHours = 0`. -/
theorem C6_no_missing_hours (first len : Nat) (il_holidays : List Nat)
    (f : Nat → Option (List Entry))
    (hw : ∀ r ∈ fetch_data first len il_holidays f, 0 ≤ r.hours.getD 0) :
    (fetch_data first len il_holidays f =
      rowsOf (collectRecords (dateRange first len) il_holidays f)) ∧
    (∀ r ∈ fetch_data first len il_holidays f, r.missingHours = 0) ∧
    (fetch_data first len il_holidays f ≠ [] →
      0 ≤ finalGap (collectRecords (dateRange first len) il_holidays f)) := by
  have hrawnn : ∀ x ∈ collectRecords (dateRange first len) il_holidays f,
      0 ≤ x.hours.getD 0 := by
    intro x hx
    have hmem : x.hours ∈
        (collectRecords (dateRange first len) il_holidays f).map
          (fun y => y.hours) := List.mem_map_of_mem _ hx
    rw [← fetch_data_map_hours] at hmem
    rcases List.mem_map.mp hmem with ⟨r, hr, hre⟩
    have hw2 := hw r hr
    rw [hre] at hw2
    exact hw2
  have hgap : 0 ≤ finalGap (collectRecords (dateRange first len) il_holidays f) := by
    rw [finalGap, runningBalance_sub_targetBalance]
    apply List.sum_nonneg
    intro x hx
    rcases List.mem_map.mp hx with ⟨r, hr, hre⟩
    rw [← hre]
    exact hrawnn r ((List.take_sublist _ _).mem hr)
  have hfd : fetch_data first len il_holidays f =
      rowsOf (collectRecords (dateRange first len) il_holidays f) := by
    by_cases hempty : (collectRecords (dateRange first len) il_holidays f).isEmpty
    · rw [fetch_data, assembleReport, if_pos hempty, List.isEmpty_iff.mp hempty]
      rfl
    · rw [fetch_data, assembleReport, if_neg hempty, if_neg (not_lt.mpr hgap)]
  refine ⟨hfd, ?_, fun _ => hgap⟩
  intro r hr
  rw [hfd] at hr
  rcases rowsOf_mem _ r hr with ⟨i, hi, he⟩
  rw [he, mkRow_missingHours]

/-! ### Claim C9: non-reportable dates are skipped -/

/-- C9: a date the policy marks non-reportable (`requiredHours = 0`)
never appears as a record's date; every assembled record has
`requiredHours > 0`; and dropping the non-reportable dates from the range
before assembly changes nothing — they contribute nothing to the report
or its balances. -/
theorem C9_nonreportable_skipped (first len : Nat) (il_holidays : List Nat)
    (f : Nat → Option (List Entry)) :
    (∀ d ∈ dateRange first len, get_required_hours d il_holidays = 0 →
      ∀ r ∈ fetch_data first len il_holidays f, r.date ≠ d) ∧
    (∀ r ∈ fetch_data first len il_holidays f, 0 < r.required) ∧
    (assembleReport
        ((dateRange first len).filter
          (fun d => decide (0 < get_required_hours d il_holidays)))
        il_holidays f =
      fetch_data first len il_holidays f) := by
  have hfields : ∀ r ∈ fetch_data first len il_holidays f,
      0 < r.required ∧
        r.required = get_required_hours r.date il_holidays := by
    intro r hr
    rw [fetch_data] at hr
    rcases assembleReport_mem _ _ _ r hr with ⟨i, hi, hor⟩
    have hmem := getD_mem _ i hi
    rcases collectRecords_mem _ _ _ _ hmem with ⟨_, hreq, hpos, _⟩
    rcases hor with he | he
    · rw [he, mkRow_required, mkRow_date]
      exact ⟨hpos, hreq⟩
    · rw [he, update_required, update_date, mkRow_required, mkRow_date]
      exact ⟨hpos, hreq⟩
  refine ⟨?_, fun r hr => (hfields r hr).1, ?_⟩
  · intro d hd h0 r hr heq
    rcases hfields r hr with ⟨hpos, hreq⟩
    rw [heq, h0] at hreq
    rw [hreq] at hpos
    exact lt_irrefl 0 hpos
  · rw [fetch_data, assembleReport, assembleReport,
      collectRecords_filter_reportable]

/-! ### Concrete oracles for witnesses and counterexamples -/

/-- A concrete successful oracle: every date returns one nine-hour entry
(32400 seconds) named `"t"`. -/
def exFetch : Nat → Option (List Entry) := fun _ => some [⟨32400, "t"⟩]

/-- A concrete always-failing oracle: every per-date fetch fails. -/
def exFailFetch : Nat → Option (List Entry) := fun _ => none

theorem fetch_data_eq_nil_iff (first len : Nat) (il_holidays : List Nat)
    (f : Nat → Option (List Entry)) :
    fetch_data first len il_holidays f = [] ↔
      collectRecords (dateRange first len) il_holidays f = [] :=
  assembleReport_eq_nil_iff _ _ _

theorem mainOutcome_eq_report (first len : Nat) (il_holidays : List Nat)
    (f : Nat → Option (List Entry))
    (h : fetch_data first len il_holidays f ≠ []) :
    mainOutcome first len il_holidays f =
      Outcome.report (fetch_data first len il_holidays f) := by
  rw [mainOutcome, if_neg (by simpa [List.isEmpty_iff] using h)]

theorem mainOutcome_eq_failure (first len : Nat) (il_holidays : List Nat)
    (f : Nat → Option (List Entry))
    (h : fetch_data first len il_holidays f = []) :
    mainOutcome first len il_holidays f = Outcome.failure := by
  rw [mainOutcome, if_pos (by simpa [List.isEmpty_iff] using h)]

theorem exFetch_raw :
    collectRecords (dateRange 0 2) [] exFetch =
      [⟨0, some 9, ["t"], 8.5⟩, ⟨1, some 9, ["t"], 8.5⟩] := by
  norm_num [collectRecords, dateRange, get_required_hours, weekday,
    is_holiday_eve, get_work_hours_and_tasks, exFetch, List.range_succ,
    List.filter, show ("t" : String) ≠ "" from by decide]

theorem exFetch_len2 : (fetch_data 0 2 [] exFetch).length = 2 := by
  rw [fetch_data_length, exFetch_raw]
  rfl

theorem exFetch_hours_map :
    (fetch_data 0 2 [] exFetch).map (fun y => y.hours) = [some 9, some 9] := by
  rw [fetch_data_map_hours, exFetch_raw]
  rfl

theorem exFetch_hours_nonneg :
    ∀ r ∈ fetch_data 0 2 [] exFetch, 0 ≤ r.hours.getD 0 := by
  intro r hr
  have hmem : r.hours ∈ (fetch_data 0 2 [] exFetch).map (fun y => y.hours) :=
    List.mem_map_of_mem _ hr
  rw [exFetch_hours_map] at hmem
  simp at hmem
  rw [hmem]
  norm_num

theorem exFriday_raw : collectRecords (dateRange 4 1) [] exFetch = [] := by
  norm_num [collectRecords, dateRange, get_required_hours, weekday,
    is_holiday_eve, List.range_succ]

theorem exFail_raw :
    collectRecords (dateRange 0 1) [] exFailFetch = [⟨0, none, [], 8.5⟩] := by
  norm_num [collectRecords, dateRange, get_required_hours, weekday,
    is_holiday_eve, get_work_hours_and_tasks, exFailFetch, List.range_succ]

/-! ### Claim C7: all-fetches-fail versus empty range -/

/-- C7 counterexample: on the one-Monday range `[0]` every per-date fetch
fails, yet the caller receives a normal (non-empty) report outcome, not
the claimed request-level failure; while the rest-day-only Friday range
`[4]` — which the claim says is not a failure — is exactly the case the
caller reports as a failure. -/
theorem C7_counterexample :
    mainOutcome 0 1 [] exFailFetch =
      Outcome.report (fetch_data 0 1 [] exFailFetch) ∧
    mainOutcome 0 1 [] exFailFetch ≠ Outcome.failure ∧
    fetch_data 0 1 [] exFailFetch ≠ [] ∧
    mainOutcome 4 1 [] exFetch = Outcome.failure := by
  have hne : fetch_data 0 1 [] exFailFetch ≠ [] := by
    intro e
    have he2 := (fetch_data_eq_nil_iff _ _ _ _).mp e
    rw [exFail_raw] at he2
    exact List.cons_ne_nil _ _ he2
  have hemp : fetch_data 4 1 [] exFetch = [] :=
    (fetch_data_eq_nil_iff _ _ _ _).mpr exFriday_raw
  have hrep := mainOutcome_eq_report 0 1 [] exFailFetch hne
  refine ⟨hrep, ?_, hne, mainOutcome_eq_failure 4 1 [] exFetch hemp⟩
  rw [hrep]
  intro habs
  exact Outcome.noConfusion habs

/-- C7 amended: the code does not distinguish the two cases the claim
requires.  A range whose fetch loop yields no records — e.g. only rest
days — is the outcome the caller reports as a failure; when every
per-date fetch fails but reportable dates exist, the caller receives an
ordinary report whose records all have absent `workedHours`. -/
theorem C7_amended_failure_vs_empty (first len : Nat) (il_holidays : List Nat)
    (f : Nat → Option (List Entry)) :
    (collectRecords (dateRange first len) il_holidays f = [] →
      mainOutcome first len il_holidays f = Outcome.failure) ∧
    ((∀ d, f d = none) →
      collectRecords (dateRange first len) il_holidays f ≠ [] →
      mainOutcome first len il_holidays f =
        Outcome.report (fetch_data first len il_holidays f) ∧
      fetch_data first len il_holidays f ≠ [] ∧
      ∀ r ∈ fetch_data first len il_holidays f, r.hours = none) := by
  constructor
  · intro he
    exact mainOutcome_eq_failure _ _ _ _ ((fetch_data_eq_nil_iff _ _ _ _).mpr he)
  · intro hf hne
    have hne2 : fetch_data first len il_holidays f ≠ [] := by
      intro e
      exact hne ((fetch_data_eq_nil_iff _ _ _ _).mp e)
    refine ⟨mainOutcome_eq_report _ _ _ _ hne2, hne2, ?_⟩
    intro r hr
    have hmem : r.hours ∈
        (fetch_data first len il_holidays f).map (fun y => y.hours) :=
      List.mem_map_of_mem _ hr
    rw [fetch_data_map_hours] at hmem
    rcases List.mem_map.mp hmem with ⟨x, hx, hxe⟩
    rw [← hxe]
    rw [collectRecords_hours_none _ _ _ hf x hx]

/-- Witness for the amended C7 at the concrete ranges of the
counterexample. -/
theorem C7_witness :
    mainOutcome 4 1 [] exFetch = Outcome.failure ∧
    mainOutcome 0 1 [] exFailFetch =
      Outcome.report (fetch_data 0 1 [] exFailFetch) :=
  ⟨(C7_amended_failure_vs_empty 4 1 [] exFetch).1 exFriday_raw,
    ((C7_amended_failure_vs_empty 0 1 [] exFailFetch).2 (fun _ => rfl)
      (by rw [exFail_raw]; exact List.cons_ne_nil _ _)).1⟩

/-! ### Claim C8: accumulators and the custom-span path -/

/-- C8 counterexample: for the custom span `[1, 1]` inside the two-Monday
week starting at `0`, with nine worked hours on each of the two reportable
days, the first (and only) returned record has
`runningBalance = 1 ≠ 0.5 = dailyDifference` and
`targetBalance = -17 ≠ -8.5 = -requiredHours`: the span filter runs after
the ledger, so the returned sequence does not restart at zero. -/
theorem C8_counterexample :
    ((customSpanReport 0 2 [] exFetch 1 1).getD 0 default).runningBalance ≠
      ((customSpanReport 0 2 [] exFetch 1 1).getD 0 default).dailyDiff ∧
    ((customSpanReport 0 2 [] exFetch 1 1).getD 0 default).targetBalance ≠
      -((customSpanReport 0 2 [] exFetch 1 1).getD 0 default).required := by
  norm_num [customSpanReport, fetch_data, assembleReport, dateRange,
    collectRecords, get_required_hours, weekday, is_holiday_eve,
    get_work_hours_and_tasks, rowsOf, mkRow, runningBalance, targetBalance,
    dailyDiff, statusOf, setLastMissing, finalGap, exFetch,
    List.range_succ, List.filter]

/-- C8 amended: each `fetch_data` invocation itself seeds both
accumulators at zero — the first record of the sequence `fetch_data`
returns has `runningBalance` equal to its own `dailyDifference` and
`targetBalance` equal to the negation of its own `requiredHours`.  (For a
custom span, `main` filters that sequence only afterwards, so the first
record handed to the caller may retain earlier balances, as the
counterexample shows.) -/
theorem C8_amended_zero_seed (first len : Nat) (il_holidays : List Nat)
    (f : Nat → Option (List Entry))
    (h : fetch_data first len il_holidays f ≠ []) :
    (reportRow first len il_holidays f 0).runningBalance =
      (reportRow first len il_holidays f 0).dailyDiff ∧
    (reportRow first len il_holidays f 0).targetBalance =
      -(reportRow first len il_holidays f 0).required := by
  have hne2 : collectRecords (dateRange first len) il_holidays f ≠ [] := by
    intro e
    exact h ((fetch_data_eq_nil_iff _ _ _ _).mpr e)
  have h02 : 0 < (collectRecords (dateRange first len) il_holidays f).length :=
    List.length_pos.mpr hne2
  constructor
  · rw [reportRow_eq_mkRow_update first len il_holidays f 0 h02,
      update_runningBalance, update_dailyDiff, mkRow_runningBalance,
      mkRow_dailyDiff, runningBalance_zero _ hne2]
  · rw [reportRow_eq_mkRow_update first len il_holidays f 0 h02,
      update_targetBalance, update_required, mkRow_targetBalance,
      mkRow_required, targetBalance_zero _ hne2]

/-- Witness for the amended C8 on the concrete two-Monday report. -/
theorem C8_witness :
    (reportRow 0 2 [] exFetch 0).runningBalance =
      (reportRow 0 2 [] exFetch 0).dailyDiff :=
  (C8_amended_zero_seed 0 2 [] exFetch
    (List.ne_nil_of_length_pos (by rw [exFetch_len2]; omega))).1

/-! ### Witnesses for the confirmed per-record claims -/

/-- Witness for C1: the running-balance recurrence holds between the two
concrete records of the two-Monday report. -/
theorem C1_witness :
    (reportRow 0 2 [] exFetch 1).runningBalance =
      (reportRow 0 2 [] exFetch 0).runningBalance +
        (reportRow 0 2 [] exFetch 1).dailyDiff :=
  (C1_ledger_recurrences 0 2 [] exFetch).2.2.1 0
    (by rw [exFetch_len2]; omega)

/-- Witness for C2: the first concrete record's status is `OK` or
`Warning`. -/
theorem C2_witness :
    (reportRow 0 2 [] exFetch 0).status = "OK" ∨
      (reportRow 0 2 [] exFetch 0).status = "Warning" :=
  ((C2_status_classifier 0 2 [] exFetch) 0 (by rw [exFetch_len2]; omega)).1

/-- Witness for C4: a non-final concrete record has `missingHours = 0`. -/
theorem C4_witness :
    (reportRow 0 2 [] exFetch 0).missingHours = 0 :=
  (C4_missing_hours_attribution 0 2 [] exFetch
      (List.ne_nil_of_length_pos (by rw [exFetch_len2]; omega))).2.2 0
    (by rw [exFetch_len2]; omega)

/-- Witness for C5: the first concrete record's balance gap is
non-negative. -/
theorem C5_witness :
    0 ≤ (reportRow 0 2 [] exFetch 0).runningBalance -
        (reportRow 0 2 [] exFetch 0).targetBalance :=
  ((C5_balance_gap_invariant 0 2 [] exFetch exFetch_hours_nonneg) 0
    (by rw [exFetch_len2]; omega)).2.1

/-- Witness for C6: the concrete report's final gap is non-negative. -/
theorem C6_witness :
    0 ≤ finalGap (collectRecords (dateRange 0 2) [] exFetch) :=
  (C6_no_missing_hours 0 2 [] exFetch exFetch_hours_nonneg).2.2
    (List.ne_nil_of_length_pos (by rw [exFetch_len2]; omega))

/-- Witness for C9: a concrete assembled record has positive required
hours. -/
theorem C9_witness :
    0 < ((fetch_data 0 2 [] exFetch).getD 0 default).required :=
  (C9_nonreportable_skipped 0 2 [] exFetch).2.1
    ((fetch_data 0 2 [] exFetch).getD 0 default)
    (by
      rw [List.getD_eq_getElem _ _ (by rw [exFetch_len2]; omega)]
      exact List.getElem_mem _)
